import Mathlib

/-!
Verification of the consent-aware AI dashboard.

The repository ships the Next.js frontend (API client, dashboard panels)
and documents a FastAPI backend (consent service, AI service, evaluation
service, request logger).  The backend sources are not in the tree, so the
backend data model and operations below are modelled from the spec; the
frontend `ApiClient.fetchJson` and `AttributionPanel` are embedded from the
TypeScript sources.
-/

namespace ConsentDash

/-- The fixed, closed category enumeration `purchase_history`, `preferences`,
`activity` (frontend `CATEGORIES` list; spec §3). -/
inductive ConsentCategory where
  | purchase_history
  | preferences
  | activity
deriving DecidableEq, Fintype

/-- Fixed enumeration as an ordered list, matching the frontend order. -/
def allCategories : List ConsentCategory :=
  [.purchase_history, .preferences, .activity]

/-- Consent status: `granted` or `revoked`; no unset state (spec §3). -/
inductive ConsentStatus where
  | granted
  | revoked
deriving DecidableEq, Fintype

/-- Modelled from the spec: backend `consent.py` model is missing from the
tree.  Immutable consent event with user id, category, action, timestamp and
unique event id (spec §3). -/
structure ConsentEvent where
  user : String
  category : ConsentCategory
  action : ConsentStatus
  timestamp : Nat
  eventId : Nat
deriving DecidableEq

/-- Modelled from the spec: backend `consent_service.py` is missing from the
tree.  The ConsentStore is an append-only event log; list order is insertion
order (spec §4.1). -/
structure ConsentStore where
  events : List ConsentEvent
deriving DecidableEq

/-- A consent snapshot: mapping from category to status for one user. -/
def ConsentSnapshot := ConsentCategory → ConsentStatus

instance : DecidableEq ConsentSnapshot :=
  fun f g => Fintype.decidablePiFintype f g

/-- The events of one user for one category, in insertion order. -/
def userCatEvents (events : List ConsentEvent) (u : String)
    (c : ConsentCategory) : List ConsentEvent :=
  events.filter (fun e => e.user = u && e.category = c)

/-- Modelled from the spec: backend `consent_service.py` is missing.  Scan of
the event list keeping the event with the latest timestamp, a later insertion
winning ties (spec §4.1, §9: fold over the ordered event sequence). -/
def latestStep (best : Option ConsentEvent) (e : ConsentEvent) :
    Option ConsentEvent :=
  match best with
  | none => some e
  | some b => if b.timestamp ≤ e.timestamp then some e else some b

/-- Modelled from the spec: backend `consent_service.py` is missing.  Fold of
`latestStep` over the event list in insertion order. -/
def latestEvent (l : List ConsentEvent) : Option ConsentEvent :=
  l.foldl latestStep none

/-- Modelled from the spec: backend `consent_service.py` is missing.
`currentState(user)`: per category the action of the latest event, default
revoked when the user has no event for the category (spec §4.1). -/
def currentState (s : ConsentStore) (u : String) : ConsentSnapshot :=
  fun c =>
    match latestEvent (userCatEvents s.events u c) with
    | none => .revoked
    | some e => e.action

/-- Declarative reading of the spec sentence for `currentState`: the first
event, scanning from the most recent insertion backwards, whose timestamp is
maximal among the user's events for the category. -/
def latestEventSpec (l : List ConsentEvent) : Option ConsentEvent :=
  l.reverse.find? (fun e => l.all (fun x => x.timestamp ≤ e.timestamp))

/-- Modelled from the spec: category validation at the boundary
(spec §4.1, §9 open question: non-enumerated categories are rejected). -/
def parseCategory (s : String) : Option ConsentCategory :=
  if s = "purchase_history" then some .purchase_history
  else if s = "preferences" then some .preferences
  else if s = "activity" then some .activity
  else none

/-- Per-category underlying user data (the data service's record). -/
def UserData := ConsentCategory → List String

/-- Accessible bundle: `none` means the category is entirely omitted
(deliberately blocked), `some d` means the data is present verbatim. -/
def Bundle := ConsentCategory → Option (List String)

/-- Modelled from the spec: backend `data_service.py` (AccessGate) is missing
from the tree.  `resolve(user_data, snapshot)`: categories with granted
status are copied verbatim; revoked categories are omitted, not included as
empty placeholders (spec §4.2). -/
def resolve (data : UserData) (snap : ConsentSnapshot) : Bundle :=
  fun c => if snap c = .granted then some (data c) else none

/-- Attribution entry: category, data actually used, blocked flag
(spec §3; frontend `AttributionInfo`). -/
structure AttributionEntry where
  category : ConsentCategory
  dataUsed : List String
  wasBlocked : Bool
deriving DecidableEq

/-- Modelled from the spec: backend `ai_service.py` is missing from the
tree.  One AttributionEntry per category of the full enumeration: blocked
with empty data when absent from the bundle, else the bundle's data
(spec §4.3). -/
def genAttribution (b : Bundle) : List AttributionEntry :=
  allCategories.map fun c =>
    match b c with
    | none => ⟨c, [], true⟩
    | some d => ⟨c, d, false⟩

/-- Number of categories present in the bundle. -/
def grantedCount (b : Bundle) : Nat :=
  allCategories.countP (fun c => (b c).isSome)

/-- Modelled from the spec: backend `ai_service.py` is missing.  Confidence
scales with data availability, monotonically non-decreasing in the number of
accessible categories, minimum at no consent (spec §4.3; README). -/
def genConfidence (b : Bundle) : ℚ :=
  (1 + grantedCount b) / 4

/-- Display name of a category, as used inside generated output. -/
def categoryName : ConsentCategory → String
  | .purchase_history => "purchase_history"
  | .preferences => "preferences"
  | .activity => "activity"

/-- Modelled from the spec: backend `ai_service.py` is missing.  Output text
is a total function of the prompt and of every category present in the
bundle — a branch per element of the power set of the enumeration, not
keyword matching (spec §4.3, §9). -/
def genOutput (prompt : String) (b : Bundle) : String :=
  "Recommendation for \"" ++ prompt ++ "\":" ++
    String.join (allCategories.map fun c =>
      match b c with
      | none => ""
      | some d =>
          " [" ++ categoryName c ++ ": " ++ String.intercalate ", " d ++ "]")

/-- AI response (spec §3; frontend `AIResponse`). -/
structure AIResponse where
  requestId : Nat
  output : String
  confidence : ℚ
  attribution : List AttributionEntry
  latencyMs : Nat
deriving DecidableEq

/-- Modelled from the spec: backend `ai_service.py` is missing.
`generate(prompt, bundle)` run between wall-clock instants `t0 ≤ t1`; the
latency field records the wall-clock measurement, which is reporting only
(spec §4.3). -/
def generateAt (rid : Nat) (prompt : String) (b : Bundle) (t0 t1 : Nat) :
    AIResponse :=
  { requestId := rid
    output := genOutput prompt b
    confidence := genConfidence b
    attribution := genAttribution b
    latencyMs := t1 - t0 }

/-- Ledger entry: request data plus response, keyed by request id
(spec §3; frontend `AIRequestLog`). -/
structure LedgerEntry where
  requestId : Nat
  user : String
  prompt : String
  snapshot : ConsentSnapshot
  response : AIResponse
  timestamp : Nat
deriving DecidableEq

/-- Domain-level error taxonomy (spec §7). -/
inductive Err where
  | invalidCategory
  | invalidLimit
  | notFound
  | validationError
deriving DecidableEq

/-- Modelled from the spec: the backend application state — the ConsentStore
event log and the RequestLedger entries, both process-wide in-memory stores
(spec §2, §5).  Ledger list order is insertion (recording) order. -/
structure AppState where
  store : ConsentStore
  ledger : List LedgerEntry
deriving DecidableEq

/-- Modelled from the spec: backend `consent_service.py` is missing.
`grantConsent(user, category)`: validate the category at the boundary, then
append one event; unknown category is an `InvalidCategory` error and the
state is untouched (spec §4.1, §6, §7). -/
def grantConsent (s : AppState) (u rawCat : String) (now : Nat) :
    AppState × Except Err ConsentEvent :=
  match parseCategory rawCat with
  | none => (s, .error .invalidCategory)
  | some c =>
      let e : ConsentEvent :=
        ⟨u, c, .granted, now, s.store.events.length⟩
      ({ s with store := ⟨s.store.events ++ [e]⟩ }, .ok e)

/-- Modelled from the spec: backend `consent_service.py` is missing.
`revokeConsent(user, category)`, same boundary validation as grant
(spec §4.1, §6, §7). -/
def revokeConsent (s : AppState) (u rawCat : String) (now : Nat) :
    AppState × Except Err ConsentEvent :=
  match parseCategory rawCat with
  | none => (s, .error .invalidCategory)
  | some c =>
      let e : ConsentEvent :=
        ⟨u, c, .revoked, now, s.store.events.length⟩
      ({ s with store := ⟨s.store.events ++ [e]⟩ }, .ok e)

/-- Modelled from the spec: `getConsentState(user_id)` exposed by the core
(spec §6), a read of the derived snapshot. -/
def getConsentState (s : AppState) (u : String) : ConsentSnapshot :=
  currentState s.store u

/-- Modelled from the spec: backend request logger is missing.
`getRequest(request_id)` fails with `NotFound` when absent (spec §4.4, §6). -/
def getRequest (s : AppState) (rid : Nat) : Except Err LedgerEntry :=
  match s.ledger.find? (fun e => e.requestId = rid) with
  | none => .error .notFound
  | some e => .ok e

/-- Default query limit, from the frontend `ApiClient.getLogs` /
`getUserLogs` default parameter (`limit: number = 100`). -/
def defaultLimit : Int := 100

/-- Modelled from the spec: backend request logger is missing.
`list(limit)`: most-recent-first, truncated to `limit`; non-positive limit
is a validation error (spec §4.4). -/
def listLogs (s : AppState) (limit : Int) : Except Err (List LedgerEntry) :=
  if limit ≤ 0 then .error .invalidLimit
  else .ok (s.ledger.reverse.take limit.toNat)

/-- Modelled from the spec: backend request logger is missing.
`listForUser(user, limit)` (spec §4.4). -/
def listLogsForUser (s : AppState) (u : String) (limit : Int) :
    Except Err (List LedgerEntry) :=
  if limit ≤ 0 then .error .invalidLimit
  else .ok ((s.ledger.filter (fun e => e.user = u)).reverse.take limit.toNat)

/-- `list` with no limit supplied uses the default of 100. -/
def listLogsNoLimit (s : AppState) : Except Err (List LedgerEntry) :=
  listLogs s defaultLimit

/-- Scan of the character stream: alphanumeric characters are lowercased and
accumulated into the current token (held reversed); any other character
closes the current token. -/
def tokenizeChars : List Char → List Char → List String
  | [], cur => if cur.isEmpty then [] else [String.mk cur.reverse]
  | c :: rest, cur =>
      if c.isAlphanum then tokenizeChars rest (c.toLower :: cur)
      else if cur.isEmpty then tokenizeChars rest []
      else String.mk cur.reverse :: tokenizeChars rest []

/-- Modelled from the spec: backend `similarity.py` is missing from the
tree.  Case-insensitive tokenization on non-alphanumeric boundaries
(spec §4.5 step 3). -/
def tokenize (s : String) : List String :=
  tokenizeChars s.data []

/-- The union of terms occurring in either token list (the sparse vector
index set). -/
def termSet (A B : List String) : Finset String :=
  (A ++ B).toFinset

/-- Dot product of the two sparse term-frequency vectors. -/
def dotProd (A B : List String) : ℕ :=
  ∑ t ∈ termSet A B, A.count t * B.count t

/-- Squared Euclidean norm of a term-frequency vector. -/
def normSq (A : List String) : ℕ :=
  ∑ t ∈ A.toFinset, A.count t ^ 2

/-- Modelled from the spec: backend `similarity.py` is missing.  Cosine
similarity of the sparse term-frequency vectors of the two texts; 1.0 when
both tokenize to empty, 0.0 when exactly one does (spec §4.5 step 3). -/
noncomputable def cosineSim (a b : String) : ℝ :=
  let A := tokenize a
  let B := tokenize b
  if A = [] ∧ B = [] then 1
  else if A = [] ∨ B = [] then 0
  else (dotProd A B : ℝ) /
    (Real.sqrt (normSq A) * Real.sqrt (normSq B))

/-- What-if comparison result, never persisted (spec §3; frontend
`WhatIfResponse`). -/
structure WhatIfResult where
  originalOutput : String
  modifiedOutput : String
  originalConfidence : ℚ
  modifiedConfidence : ℚ
  similarityScore : ℝ
  confidenceDelta : ℚ
  latencyDiffMs : Int
  attributionChanges : List AttributionEntry

/-- Modelled from the spec: backend `evaluation_service.py` is missing.
Attribution changes: the categories whose `was_blocked` differs between base
and modified attribution, each reported with its new blocked state
(spec §4.5 step 5). -/
def attributionChanges (base modified : List AttributionEntry) :
    List AttributionEntry :=
  modified.filter (fun m =>
    match base.find? (fun e => e.category = m.category) with
    | some e => e.wasBlocked != m.wasBlocked
    | none => true)

/-- Modelled from the spec: backend `evaluation_service.py` is missing.
`whatIf(base_request_id, hypothetical_snapshot)`: look up the base entry
(`NotFound` if absent), re-run AccessGate and generation under the
hypothetical snapshot as a fresh computation, compute the comparison
metrics, and return the result directly — the state is returned exactly as
received, nothing is written to the consent log or the ledger (spec §4.5).
`userData` re-derives the user's underlying data; `t0 t1` bound the fresh
generation's wall clock. -/
noncomputable def runWhatIf (s : AppState) (userData : String → UserData)
    (rid : Nat) (hyp : ConsentSnapshot) (t0 t1 : Nat) :
    AppState × Except Err WhatIfResult :=
  match s.ledger.find? (fun e => e.requestId = rid) with
  | none => (s, .error .notFound)
  | some entry =>
      let bundle := resolve (userData entry.user) hyp
      let modified := generateAt rid entry.prompt bundle t0 t1
      (s, .ok
        { originalOutput := entry.response.output
          modifiedOutput := modified.output
          originalConfidence := entry.response.confidence
          modifiedConfidence := modified.confidence
          similarityScore := cosineSim entry.response.output modified.output
          confidenceDelta := modified.confidence - entry.response.confidence
          latencyDiffMs :=
            (modified.latencyMs : Int) - (entry.response.latencyMs : Int)
          attributionChanges :=
            attributionChanges entry.response.attribution
              modified.attribution })

/-! Frontend `ApiClient.fetchJson` (frontend/app/api/client.ts), embedded
from the TypeScript source. -/

mutual

/-- JSON values, as produced by `response.json()`. -/
inductive Json where
  | null
  | bool (b : Bool)
  | num (n : Int)
  | str (s : String)
  | arr (xs : JsonList)
  | obj (fields : JsonFields)

/-- The elements of a JSON array, in order. -/
inductive JsonList where
  | nil
  | cons (hd : Json) (tl : JsonList)

/-- The key–value fields of a JSON object, in document order. -/
inductive JsonFields where
  | nil
  | cons (key : String) (val : Json) (tl : JsonFields)

end

/-- JavaScript truthiness of a JSON value. -/
def truthy : Json → Bool
  | .null => false
  | .bool b => b
  | .num n => n != 0
  | .str s => s ≠ ""
  | .arr _ => true
  | .obj _ => true

/-- Lookup of the `detail` property among an object's fields. -/
def findDetail : JsonFields → Option Json
  | .nil => none
  | .cons k v tl => if k = "detail" then some v else findDetail tl

/-- Property access `v.detail`: defined only on objects; on any other
non-null value it is `undefined`, modelled as `none`. -/
def getDetail : Json → Option Json
  | .obj fields => findDetail fields
  | _ => none

mutual

/-- JavaScript string coercion as applied by `new Error(value)`: primitives
render as JS does, an array coerces to the comma-join of its coerced
elements (`""` for the empty array, `""` for null elements), and a plain
object coerces to "[object Object]". -/
def jsonToMessage : Json → String
  | .null => "null"
  | .bool b => if b then "true" else "false"
  | .num n => toString n
  | .str s => s
  | .arr xs => jsonListToMessage xs
  | .obj _ => "[object Object]"

/-- `Array.prototype.toString`: elements joined with ",", a null element
contributing the empty string. -/
def jsonListToMessage : JsonList → String
  | .nil => ""
  | .cons .null .nil => ""
  | .cons x .nil => jsonToMessage x
  | .cons .null tl => "," ++ jsonListToMessage tl
  | .cons x tl => jsonToMessage x ++ "," ++ jsonListToMessage tl

end

/-- The observable parts of a fetch `Response`: the `ok` flag, numeric
status, `statusText`, and the result of `response.json()` — `none` when the
body does not parse as JSON (the promise rejects). -/
structure HttpResponse where
  ok : Bool
  status : Nat
  statusText : String
  jsonBody : Option Json

/-- The throw performed on a non-ok response (client.ts line 81):
`new Error(error.detail || "HTTP " + response.status)` — accessing `.detail`
on a parsed JSON `null` itself throws a TypeError. -/
def errorResult (status : Nat) (error : Json) : Except String Json :=
  match error with
  | .null => .error "TypeError: cannot read properties of null"
  | e =>
      match getDetail e with
      | some d =>
          if truthy d then .error (jsonToMessage d)
          else .error ("HTTP " ++ toString status)
      | none => .error ("HTTP " ++ toString status)

/-- `ApiClient.fetchJson` (client.ts lines 70–85): on `response.ok` return
`response.json()` (its parse failure rejects); otherwise compute
`error = await response.json().catch(() => ({ detail: response.statusText }))`
and throw `new Error(error.detail || "HTTP " + response.status)`. -/
def fetchJson (r : HttpResponse) : Except String Json :=
  if r.ok then
    match r.jsonBody with
    | some j => .ok j
    | none => .error "SyntaxError: unexpected token in JSON"
  else
    errorResult r.status
      (match r.jsonBody with
        | some j => j
        | none => .obj (.cons "detail" (.str r.statusText) .nil))

/-! Frontend `AttributionPanel` (frontend/app/dashboard/AttributionPanel.tsx),
embedded from the TypeScript source. -/

/-- The `data_used` field union type `string[] | Record<string, string>`. -/
inductive DataUsed where
  | arr (xs : List String)
  | record (kvs : List (String × String))
deriving DecidableEq

/-- Frontend attribution value as received from the API. -/
structure AttributionInfo where
  category : String
  dataUsed : DataUsed
  wasBlocked : Bool
deriving DecidableEq

/-- `getCategoryLabel`: split on underscore, capitalize each word, join with
spaces (AttributionPanel.tsx lines 11–16). -/
def capitalizeWord (w : String) : String :=
  match w.data with
  | [] => ""
  | c :: rest => String.mk (c.toUpper :: rest)

/-- Category label shown in the panel header of each entry. -/
def getCategoryLabel (category : String) : String :=
  String.intercalate " " ((category.splitOn "_").map capitalizeWord)

/-- `formatDataUsed` (AttributionPanel.tsx lines 18–25): arrays join with
", " or "(none)" when empty; records render "key: value" pairs joined with
", ", falling back to "(none)" when the join is empty. -/
def formatDataUsed : DataUsed → String
  | .arr xs => if xs.length > 0 then String.intercalate ", " xs else "(none)"
  | .record kvs =>
      let s := String.intercalate ", " (kvs.map (fun kv => kv.1 ++ ": " ++ kv.2))
      if s ≠ "" then s else "(none)"

/-- `wasDataUsed` (AttributionPanel.tsx lines 27–32). -/
def wasDataUsed (info : AttributionInfo) : Bool :=
  match info.dataUsed with
  | .arr xs => xs.length > 0
  | .record kvs => kvs.length > 0

/-- The badge rendered for an entry. -/
inductive Badge where
  | blocked
  | accessible
  | noData
deriving DecidableEq

/-- Everything that varies per entry in the rendered panel markup: the
border/background style pair, the label, the badge, and the data text. -/
structure RenderedEntry where
  blockedStyle : Bool
  label : String
  badge : Badge
  dataText : String
deriving DecidableEq

/-- Rendering of one attribution entry (AttributionPanel.tsx lines 41–66):
blocked entries use the red style, the BLOCKED badge, and the literal
"(blocked by consent)" in place of the data; otherwise the badge depends on
`wasDataUsed` and the data text on `formatDataUsed`. -/
def renderEntry (info : AttributionInfo) : RenderedEntry :=
  { blockedStyle := info.wasBlocked
    label := getCategoryLabel info.category
    badge :=
      if info.wasBlocked then .blocked
      else if wasDataUsed info then .accessible
      else .noData
    dataText :=
      if info.wasBlocked then "(blocked by consent)"
      else formatDataUsed info.dataUsed }

/-! Concrete fixtures for the witness checks. -/

/-- Snapshot granting every category. -/
def allGranted : ConsentSnapshot := fun _ => .granted

/-- Snapshot revoking every category. -/
def allRevoked : ConsentSnapshot := fun _ => .revoked

/-- Sample per-category user data. -/
def sampleData : UserData := fun c =>
  match c with
  | .purchase_history => ["laptop", "headphones"]
  | .preferences => ["electronics"]
  | .activity => ["viewed_monitor"]

/-- Sample ledger entry for user_1 with every category granted. -/
def sampleEntry1 : LedgerEntry :=
  { requestId := 1
    user := "user_1"
    prompt := "Recommend products"
    snapshot := allGranted
    response := generateAt 1 "Recommend products" (resolve sampleData allGranted) 0 3
    timestamp := 10 }

/-- Sample ledger entry for user_2 with every category revoked. -/
def sampleEntry2 : LedgerEntry :=
  { requestId := 2
    user := "user_2"
    prompt := "Recommend"
    snapshot := allRevoked
    response := generateAt 2 "Recommend" (resolve sampleData allRevoked) 0 2
    timestamp := 20 }

/-- Sample application state: one consent event and two ledger entries. -/
def sampleState : AppState :=
  { store := ⟨[⟨"user_1", .purchase_history, .granted, 5, 0⟩]⟩
    ledger := [sampleEntry1, sampleEntry2] }

/-! Theorems. -/

/-- C1: the generation function is deterministic — two calls with identical
(prompt, bundle), even at different wall-clock instants and under different
request ids, produce byte-identical output text and identical confidence. -/
theorem generate_deterministic (rid rid' : Nat) (p : String) (b : Bundle)
    (t0 t1 t0' t1' : Nat) :
    (generateAt rid p b t0 t1).output = (generateAt rid' p b t0' t1').output ∧
    (generateAt rid p b t0 t1).confidence =
      (generateAt rid' p b t0' t1').confidence :=
  ⟨rfl, rfl⟩

/-- C3: a what-if evaluation has no side effects on the ConsentStore or the
RequestLedger — the state returned by `runWhatIf` is the input state, so
`getConsentState` (for every user) and `getRequest` (for every id) agree
before and after the call, and no hypothetical snapshot is written. -/
theorem whatIf_no_side_effects (s : AppState) (ud : String → UserData)
    (rid : Nat) (hyp : ConsentSnapshot) (t0 t1 : Nat) :
    (runWhatIf s ud rid hyp t0 t1).1 = s ∧
    (∀ u, getConsentState (runWhatIf s ud rid hyp t0 t1).1 u =
      getConsentState s u) ∧
    (∀ r, getRequest (runWhatIf s ud rid hyp t0 t1).1 r = getRequest s r) := by
  have h1 : (runWhatIf s ud rid hyp t0 t1).1 = s := by
    unfold runWhatIf
    cases s.ledger.find? (fun e => e.requestId = rid) <;> rfl
  exact ⟨h1, fun u => by rw [h1], fun r => by rw [h1]⟩

/-- C7: grant or revoke with a category outside the fixed enumeration fails
with `InvalidCategory` and leaves the state — in particular the consent
event log — unchanged. -/
theorem invalid_category_rejected (s : AppState) (u raw : String) (now : Nat)
    (h : parseCategory raw = none) :
    grantConsent s u raw now = (s, .error .invalidCategory) ∧
    revokeConsent s u raw now = (s, .error .invalidCategory) ∧
    (grantConsent s u raw now).1.store.events = s.store.events ∧
    (revokeConsent s u raw now).1.store.events = s.store.events := by
  refine ⟨?_, ?_, ?_, ?_⟩ <;> simp [grantConsent, revokeConsent, h]

/-- C7 witness: the unknown category "location" is rejected on the sample
state and the event log is untouched. -/
theorem invalid_category_rejected_witness :
    grantConsent sampleState "user_1" "location" 7 =
      (sampleState, .error .invalidCategory) ∧
    revokeConsent sampleState "user_1" "location" 7 =
      (sampleState, .error .invalidCategory) := by
  have h := invalid_category_rejected sampleState "user_1" "location" 7
    (by decide)
  exact ⟨h.1, h.2.1⟩

/-- C10: a blocked attribution entry renders the BLOCKED badge and the
literal "(blocked by consent)" in place of the data, and two blocked entries
for the same category render identically whatever their `data_used`. -/
theorem blocked_attribution_masks_data (i : AttributionInfo)
    (h : i.wasBlocked = true) :
    (renderEntry i).badge = .blocked ∧
    (renderEntry i).dataText = "(blocked by consent)" ∧
    ∀ j : AttributionInfo, j.wasBlocked = true → j.category = i.category →
      renderEntry j = renderEntry i := by
  refine ⟨by simp [renderEntry, h], by simp [renderEntry, h], ?_⟩
  intro j hj hcat
  simp [renderEntry, h, hj, hcat]

/-- C10 witness: two blocked entries for purchase_history with different
non-empty `data_used` payloads render identically, with the blocked text. -/
theorem blocked_attribution_masks_data_witness :
    (renderEntry ⟨"purchase_history", .arr ["laptop"], true⟩).dataText =
      "(blocked by consent)" ∧
    renderEntry ⟨"purchase_history", .record [("item", "laptop")], true⟩ =
      renderEntry ⟨"purchase_history", .arr ["laptop"], true⟩ := by
  have h := blocked_attribution_masks_data
    ⟨"purchase_history", .arr ["laptop"], true⟩ rfl
  exact ⟨h.2.1, h.2.2 ⟨"purchase_history", .record [("item", "laptop")], true⟩
    rfl rfl⟩

/-- Counting a stronger predicate over a list gives no more hits. -/
theorem countP_mono {α : Type} (l : List α) {p q : α → Bool}
    (h : ∀ a, p a = true → q a = true) : l.countP p ≤ l.countP q := by
  induction l with
  | nil => simp
  | cons a t ih =>
    rw [List.countP_cons, List.countP_cons]
    have hih := ih
    cases hp : p a
    · simp only [Bool.false_eq_true, if_false]
      omega
    · have hq := h a hp
      simp only [hq, if_true]
      omega

/-- A snapshot granting a subset of categories yields a bundle with no more
accessible categories. -/
theorem grantedCount_mono (d : UserData) (s1 s2 : ConsentSnapshot)
    (h : ∀ c, s1 c = .granted → s2 c = .granted) :
    grantedCount (resolve d s1) ≤ grantedCount (resolve d s2) := by
  apply countP_mono
  intro c hc
  have h1 : s1 c = .granted := by
    by_contra hne
    simp [resolve, hne] at hc
  simp [resolve, h c h1]

/-- C2: confidence is monotonically non-decreasing in the set of accessible
categories — whenever one snapshot's granted set is contained in another's,
the generated confidence under the gate for the first is at most the
confidence for the second, for every prompt and every underlying data. -/
theorem confidence_monotone (rid rid' : Nat) (p : String) (d : UserData)
    (s1 s2 : ConsentSnapshot) (t0 t1 t0' t1' : Nat)
    (h : ∀ c, s1 c = .granted → s2 c = .granted) :
    (generateAt rid p (resolve d s1) t0 t1).confidence ≤
      (generateAt rid' p (resolve d s2) t0' t1').confidence := by
  have hn := grantedCount_mono d s1 s2 h
  have hc : ((grantedCount (resolve d s1) : ℚ)) ≤
      (grantedCount (resolve d s2) : ℚ) := by exact_mod_cast hn
  simp only [generateAt, genConfidence]
  linarith

/-- C2 witness: with all categories revoked versus all granted, confidence
under the gate does not decrease (here 1/4 ≤ 1). -/
theorem confidence_monotone_witness :
    (generateAt 1 "Recommend products" (resolve sampleData allRevoked) 0 3
      ).confidence ≤
    (generateAt 1 "Recommend products" (resolve sampleData allGranted) 0 3
      ).confidence :=
  confidence_monotone 1 1 "Recommend products" sampleData allRevoked
    allGranted 0 3 0 3 (fun c hc => by cases c <;> rfl)

/-- The attribution produced from a bundle lists exactly the fixed category
enumeration, in order. -/
theorem genAttribution_categories (b : Bundle) :
    (genAttribution b).map (fun e => e.category) = allCategories := by
  rw [genAttribution, List.map_map]
  have h : ∀ c ∈ allCategories,
      ((fun e => AttributionEntry.category e) ∘ fun c =>
        (match b c with
          | none => (⟨c, [], true⟩ : AttributionEntry)
          | some d => ⟨c, d, false⟩)) c = id c := by
    intro c _
    cases hb : b c <;> simp [hb]
  rw [List.map_congr_left h, List.map_id]

/-- C4: every response produced through the gate carries exactly one
attribution entry per category of the fixed enumeration; an entry is blocked
iff its category's snapshot status was revoked at generation time, and a
blocked entry's data is empty. -/
theorem attribution_invariant (rid : Nat) (p : String) (d : UserData)
    (snap : ConsentSnapshot) (t0 t1 : Nat) :
    ((generateAt rid p (resolve d snap) t0 t1).attribution.map
      (fun e => e.category)) = allCategories ∧
    ∀ e ∈ (generateAt rid p (resolve d snap) t0 t1).attribution,
      (e.wasBlocked = true ↔ snap e.category = .revoked) ∧
      (e.wasBlocked = true → e.dataUsed = []) := by
  constructor
  · exact genAttribution_categories (resolve d snap)
  · intro e he
    simp only [generateAt, genAttribution, List.mem_map] at he
    obtain ⟨c, _, hc⟩ := he
    cases hs : snap c with
    | granted =>
        have : resolve d snap c = some (d c) := by simp [resolve, hs]
        rw [this] at hc
        subst hc
        simp [hs]
    | revoked =>
        have : resolve d snap c = none := by simp [resolve, hs]
        rw [this] at hc
        subst hc
        simp [hs]

/-- C4 witness: on the all-revoked sample run, the purchase_history entry is
blocked with empty data and its snapshot status is revoked. -/
theorem attribution_invariant_witness :
    ((generateAt 2 "Recommend" (resolve sampleData allRevoked) 0 2
      ).attribution.map (fun e => e.category)) = allCategories ∧
    ((⟨.purchase_history, [], true⟩ : AttributionEntry).wasBlocked = true ↔
      allRevoked ConsentCategory.purchase_history = .revoked) := by
  have h := attribution_invariant 2 "Recommend" sampleData allRevoked 0 2
  refine ⟨h.1, ?_⟩
  have hmem : (⟨.purchase_history, [], true⟩ : AttributionEntry) ∈
      (generateAt 2 "Recommend" (resolve sampleData allRevoked) 0 2
        ).attribution := by decide
  exact (h.2 _ hmem).1

/-- Folding `latestStep` from a present accumulator never yields `none`. -/
theorem foldl_latestStep_some (l : List ConsentEvent) (b : ConsentEvent) :
    ∃ x, l.foldl latestStep (some b) = some x := by
  induction l generalizing b with
  | nil => exact ⟨b, rfl⟩
  | cons a t ih =>
    rw [List.foldl_cons]
    cases hle : decide (b.timestamp ≤ a.timestamp)
    · have : latestStep (some b) a = some b := by
        simp [latestStep, of_decide_eq_false hle]
      rw [this]; exact ih b
    · have : latestStep (some b) a = some a := by
        simp [latestStep, of_decide_eq_true hle]
      rw [this]; exact ih a

/-- `latestEvent` is `none` exactly on the empty event list. -/
theorem latestEvent_eq_none_iff (l : List ConsentEvent) :
    latestEvent l = none ↔ l = [] := by
  cases l with
  | nil => simp [latestEvent]
  | cons a t =>
    simp only [latestEvent, List.foldl_cons]
    have hstep : latestStep none a = some a := rfl
    rw [hstep]
    obtain ⟨x, hx⟩ := foldl_latestStep_some t a
    simp [hx]

/-- `find?` only depends on the predicate's values on the list. -/
theorem find?_congr_on {α : Type} (l : List α) (p q : α → Bool)
    (h : ∀ x ∈ l, p x = q x) : l.find? p = l.find? q := by
  induction l with
  | nil => rfl
  | cons a t ih =>
    have ha := h a (List.mem_cons_self a t)
    cases hq : q a
    · have hpa : p a = false := by rw [ha, hq]
      simp only [List.find?_cons, hpa, hq]
      exact ih (fun x hx => h x (List.mem_cons_of_mem _ hx))
    · have hpa : p a = true := by rw [ha, hq]
      simp only [List.find?_cons, hpa, hq]

/-- The fold implementing `currentState` selects exactly the event the spec
sentence describes: the one with the latest timestamp, a later insertion
winning ties. -/
theorem latestEvent_eq_spec (l : List ConsentEvent) :
    latestEvent l = latestEventSpec l := by
  induction l using List.reverseRecOn with
  | nil => rfl
  | append_singleton l' e ih =>
    have hL : latestEvent (l' ++ [e]) = latestStep (latestEvent l') e := by
      simp [latestEvent, List.foldl_append]
    cases hM : latestEvent l' with
    | none =>
      have hl' : l' = [] := (latestEvent_eq_none_iff l').mp hM
      subst hl'
      simp only [List.nil_append]
      show latestEvent [e] = latestEventSpec [e]
      simp [latestEvent, latestEventSpec, latestStep, List.find?]
    | some m =>
      have hspec : latestEventSpec l' = some m := ih ▸ hM
      have hm_mem : m ∈ l' := by
        have := List.mem_of_find?_eq_some hspec
        exact List.mem_reverse.mp this
      have hm_max : ∀ x ∈ l', x.timestamp ≤ m.timestamp := by
        have hp := List.find?_some hspec
        rw [List.all_eq_true] at hp
        intro x hx
        exact of_decide_eq_true (hp x hx)
      rw [hL, hM]
      unfold latestEventSpec
      rw [List.reverse_append, List.reverse_singleton, List.singleton_append]
      by_cases hte : m.timestamp ≤ e.timestamp
      · have hpe : ((l' ++ [e]).all
            (fun x => x.timestamp ≤ e.timestamp)) = true := by
          rw [List.all_eq_true]
          intro x hx
          rcases List.mem_append.mp hx with hx' | hx'
          · exact decide_eq_true (le_trans (hm_max x hx') hte)
          · rw [List.mem_singleton.mp hx']
            exact decide_eq_true le_rfl
        simp only [List.find?_cons, hpe]
        simp [latestStep, hte]
      · have hem : e.timestamp < m.timestamp := Nat.lt_of_not_le hte
        have hpe : ((l' ++ [e]).all
            (fun x => x.timestamp ≤ e.timestamp)) = false := by
          rw [List.all_eq_false]
          exact ⟨m, List.mem_append_left _ hm_mem,
            by simpa using Nat.not_le_of_lt hem⟩
        simp only [List.find?_cons, hpe]
        have hcongr : l'.reverse.find?
            (fun x => (l' ++ [e]).all (fun y => y.timestamp ≤ x.timestamp)) =
            l'.reverse.find?
            (fun x => l'.all (fun y => y.timestamp ≤ x.timestamp)) := by
          apply find?_congr_on
          intro x hx
          have hx' : x ∈ l' := List.mem_reverse.mp hx
          cases hq : l'.all (fun y => y.timestamp ≤ x.timestamp)
          · rw [List.all_append]
            simp [hq]
          · rw [List.all_append, hq]
            have hmx : m.timestamp ≤ x.timestamp := by
              have := List.all_eq_true.mp hq m hm_mem
              exact of_decide_eq_true this
            simp
            omega
        rw [hcongr]
        have : l'.reverse.find?
            (fun x => l'.all (fun y => y.timestamp ≤ x.timestamp)) =
            latestEventSpec l' := rfl
        rw [this, hspec]
        simp [latestStep, hte]

/-- C5: `currentState` reports, per category, the action of the user's
consent event with the latest timestamp for that category (a later insertion
wins ties), defaulting to revoked for a category with no event; a user with
no events at all gets every category revoked rather than an error. -/
theorem currentState_reports_latest (s : ConsentStore) (u : String)
    (c : ConsentCategory) :
    currentState s u c =
      (match latestEventSpec (userCatEvents s.events u c) with
        | none => ConsentStatus.revoked
        | some e => e.action) ∧
    (userCatEvents s.events u c = [] → currentState s u c = .revoked) ∧
    ((∀ e ∈ s.events, e.user ≠ u) → currentState s u c = .revoked) := by
  refine ⟨?_, ?_, ?_⟩
  · unfold currentState
    rw [latestEvent_eq_spec]
  · intro h
    unfold currentState
    rw [h]
    rfl
  · intro h
    have hempty : userCatEvents s.events u c = [] := by
      unfold userCatEvents
      rw [List.filter_eq_nil_iff]
      intro e he
      have := h e he
      simp [this]
    unfold currentState
    rw [hempty]
    rfl

/-- C5 witness: on the sample state, user_1's purchase_history reflects the
single granted event, and user_2 (no events) gets every category revoked. -/
theorem currentState_reports_latest_witness :
    currentState sampleState.store "user_2" .preferences = .revoked ∧
    currentState sampleState.store "user_1" .purchase_history = .granted := by
  constructor
  · exact (currentState_reports_latest sampleState.store "user_2"
      .preferences).2.2 (by decide)
  · have h := (currentState_reports_latest sampleState.store "user_1"
      .purchase_history).1
    rw [h]
    rfl

/-- C8: `list(limit)` and `listForUser(user, limit)` return at most `limit`
entries, most-recent-first (descending timestamps whenever the ledger was
recorded in chronological order), restricted to the user for the per-user
query; a non-positive limit is an `InvalidLimit` validation error, and the
no-limit call defaults to 100. -/
theorem listLogs_contract (s : AppState) (u : String) (limit : Int) :
    (limit ≤ 0 →
      listLogs s limit = .error .invalidLimit ∧
      listLogsForUser s u limit = .error .invalidLimit) ∧
    (0 < limit →
      (listLogs s limit).isOk = true ∧
      (listLogsForUser s u limit).isOk = true) ∧
    (0 < limit → ∀ l, listLogs s limit = .ok l →
      l.length ≤ limit.toNat ∧
      (s.ledger.Pairwise (fun a b => a.timestamp ≤ b.timestamp) →
        l.Pairwise (fun a b => b.timestamp ≤ a.timestamp))) ∧
    (0 < limit → ∀ l, listLogsForUser s u limit = .ok l →
      l.length ≤ limit.toNat ∧
      (∀ e ∈ l, e.user = u) ∧
      (s.ledger.Pairwise (fun a b => a.timestamp ≤ b.timestamp) →
        l.Pairwise (fun a b => b.timestamp ≤ a.timestamp))) ∧
    listLogsNoLimit s = listLogs s 100 := by
  refine ⟨?_, ?_, ?_, ?_, rfl⟩
  · intro h
    constructor <;> simp [listLogs, listLogsForUser, h]
  · intro h
    have hn := not_le.mpr h
    simp only [listLogs, listLogsForUser, if_neg hn]
    exact ⟨rfl, rfl⟩
  · intro h l hl
    have hn := not_le.mpr h
    simp only [listLogs, if_neg hn, Except.ok.injEq] at hl
    subst hl
    constructor
    · rw [List.length_take]
      exact Nat.min_le_left _ _
    · intro hp
      exact (List.pairwise_reverse.mpr hp).sublist
        (List.take_sublist _ _)
  · intro h l hl
    have hn := not_le.mpr h
    simp only [listLogsForUser, if_neg hn, Except.ok.injEq] at hl
    subst hl
    refine ⟨?_, ?_, ?_⟩
    · rw [List.length_take]
      exact Nat.min_le_left _ _
    · intro e he
      have he' : e ∈ (s.ledger.filter (fun e => e.user = u)).reverse :=
        List.take_subset _ _ he
      have he'' : e ∈ s.ledger.filter (fun e => e.user = u) :=
        List.mem_reverse.mp he'
      have := (List.mem_filter.mp he'').2
      exact of_decide_eq_true this
    · intro hp
      have hf : (s.ledger.filter (fun e => e.user = u)).Pairwise
          (fun a b => a.timestamp ≤ b.timestamp) :=
        hp.sublist (List.filter_sublist _)
      exact (List.pairwise_reverse.mpr hf).sublist (List.take_sublist _ _)

/-- C8 witness: on the sample state, limit 0 is rejected and limit 1 returns
the single most recent entry. -/
theorem listLogs_contract_witness :
    listLogs sampleState 0 = .error .invalidLimit ∧
    ([sampleEntry2] : List LedgerEntry).length ≤ (1 : Int).toNat := by
  refine ⟨((listLogs_contract sampleState "user_1" 0).1 (by decide)).1, ?_⟩
  exact ((listLogs_contract sampleState "user_1" 1).2.2.1 (by decide)
    [sampleEntry2] rfl).1

/-- The non-ok throw always produces an error value, never a payload. -/
theorem errorResult_is_error (status : Nat) (e : Json) :
    ∃ msg, errorResult status e = .error msg := by
  cases e with
  | null => exact ⟨_, rfl⟩
  | bool b => exact ⟨_, rfl⟩
  | num n => exact ⟨_, rfl⟩
  | str s => exact ⟨_, rfl⟩
  | arr xs => exact ⟨_, rfl⟩
  | obj fields =>
      simp only [errorResult]
      cases hgd : getDetail (.obj fields) with
      | none => exact ⟨_, rfl⟩
      | some d =>
          by_cases ht : truthy d = true
          · exact ⟨jsonToMessage d, by simp [ht]⟩
          · exact ⟨"HTTP " ++ toString status, by simp [ht]⟩

/-- A truthy `detail` property supplies the thrown message. -/
theorem errorResult_truthy_detail (status : Nat) (e d : Json)
    (hd : getDetail e = some d) (ht : truthy d = true) :
    errorResult status e = .error (jsonToMessage d) := by
  cases e with
  | null => simp [getDetail] at hd
  | bool b => simp [getDetail] at hd
  | num n => simp [getDetail] at hd
  | str s => simp [getDetail] at hd
  | arr xs => simp [getDetail] at hd
  | obj fields =>
      simp only [errorResult]
      rw [hd]
      simp [ht]

/-- Without a truthy `detail` (and not on JSON null), the thrown message is
"HTTP <status>". -/
theorem errorResult_fallback (status : Nat) (e : Json) (hnn : e ≠ .null)
    (hd : ∀ d, getDetail e = some d → truthy d = false) :
    errorResult status e = .error ("HTTP " ++ toString status) := by
  cases e with
  | null => exact absurd rfl hnn
  | bool b => rfl
  | num n => rfl
  | str s => rfl
  | arr xs => rfl
  | obj fields =>
      simp only [errorResult]
      cases hgd : getDetail (.obj fields) with
      | none => rfl
      | some d => simp [hd d hgd]

/-- C9 counterexample: a non-ok 404 response whose body fails to parse as
JSON is thrown with the message `response.statusText` ("Not Found"), not
with the string "HTTP 404" the claim requires for that case. -/
theorem fetchJson_counterexample :
    fetchJson ⟨false, 404, "Not Found", none⟩ = .error "Not Found" ∧
    fetchJson ⟨false, 404, "Not Found", none⟩ ≠
      .error ("HTTP " ++ toString (404 : Nat)) := by
  constructor
  · rfl
  · intro hc
    rw [show fetchJson ⟨false, 404, "Not Found", none⟩ =
        (.error "Not Found" : Except String Json) from rfl] at hc
    injection hc with h
    exact absurd h (by decide)

/-- C9 amended: every operation either returns the parsed JSON body of an ok
response or throws; a non-ok response always throws, with the message taken
from a truthy `detail` property of the parsed body, falling back to
`response.statusText` when the body does not parse (and that is non-empty),
and to "HTTP <status>" otherwise. -/
theorem fetchJson_error_contract (r : HttpResponse) :
    (r.ok = true → ∀ j, r.jsonBody = some j → fetchJson r = .ok j) ∧
    (r.ok = false → ∀ j, fetchJson r ≠ .ok j) ∧
    (r.ok = false → ∀ j d, r.jsonBody = some j → getDetail j = some d →
      truthy d = true → fetchJson r = .error (jsonToMessage d)) ∧
    (r.ok = false → ∀ j, r.jsonBody = some j → j ≠ .null →
      (∀ d, getDetail j = some d → truthy d = false) →
      fetchJson r = .error ("HTTP " ++ toString r.status)) ∧
    (r.ok = false → r.jsonBody = none → r.statusText ≠ "" →
      fetchJson r = .error r.statusText) ∧
    (r.ok = false → r.jsonBody = none → r.statusText = "" →
      fetchJson r = .error ("HTTP " ++ toString r.status)) := by
  have hno : r.ok = false → ¬r.ok = true := by
    intro h
    rw [h]
    exact Bool.false_ne_true
  refine ⟨?_, ?_, ?_, ?_, ?_, ?_⟩
  · intro hok j hj
    simp [fetchJson, hok, hj]
  · intro hok j
    unfold fetchJson
    rw [if_neg (hno hok)]
    obtain ⟨msg, hmsg⟩ := errorResult_is_error r.status
      (match r.jsonBody with
        | some j => j
        | none => .obj (.cons "detail" (.str r.statusText) .nil))
    rw [hmsg]
    exact fun hc => Except.noConfusion hc
  · intro hok j d hj hd ht
    unfold fetchJson
    rw [if_neg (hno hok), hj]
    exact errorResult_truthy_detail r.status j d hd ht
  · intro hok j hj hnn hd
    unfold fetchJson
    rw [if_neg (hno hok), hj]
    exact errorResult_fallback r.status j hnn hd
  · intro hok hb hst
    unfold fetchJson
    rw [if_neg (hno hok), hb]
    have : getDetail (.obj (.cons "detail" (.str r.statusText) .nil)) =
        some (.str r.statusText) := rfl
    rw [errorResult_truthy_detail r.status _ _ this
      (by simp [truthy, hst])]
    rfl
  · intro hok hb hst
    unfold fetchJson
    rw [if_neg (hno hok), hb]
    apply errorResult_fallback
    · intro hc
      exact Json.noConfusion hc
    · intro d hdd
      have : d = .str r.statusText := by
        have h0 : getDetail (.obj (.cons "detail" (.str r.statusText) .nil)) =
            some (.str r.statusText) := rfl
        rw [h0] at hdd
        exact (Option.some.inj hdd).symm
      rw [this]
      simp [truthy, hst]

/-- C9 amended witness: a 403 with a string detail throws that detail; a 422
whose detail is a FastAPI-style list of error objects throws its array
coercion "[object Object]"; a 500 with an unparseable body and empty
statusText throws "HTTP 500". -/
theorem fetchJson_error_contract_witness :
    fetchJson ⟨false, 403, "Forbidden",
      some (.obj (.cons "detail" (.str "Consent required") .nil))⟩ =
      .error "Consent required" ∧
    fetchJson ⟨false, 422, "Unprocessable Entity",
      some (.obj (.cons "detail"
        (.arr (.cons (.obj (.cons "msg" (.str "field required") .nil)) .nil))
        .nil))⟩ =
      .error "[object Object]" ∧
    fetchJson ⟨false, 500, "", none⟩ =
      .error ("HTTP " ++ toString (500 : Nat)) := by
  refine ⟨?_, ?_, ?_⟩
  · exact (fetchJson_error_contract ⟨false, 403, "Forbidden",
      some (.obj (.cons "detail" (.str "Consent required") .nil))⟩).2.2.1 rfl
      (.obj (.cons "detail" (.str "Consent required") .nil)) (.str "Consent required")
      rfl rfl rfl
  · exact (fetchJson_error_contract ⟨false, 422, "Unprocessable Entity",
      some (.obj (.cons "detail"
        (.arr (.cons (.obj (.cons "msg" (.str "field required") .nil)) .nil))
        .nil))⟩).2.2.1 rfl
      (.obj (.cons "detail"
        (.arr (.cons (.obj (.cons "msg" (.str "field required") .nil)) .nil))
        .nil))
      (.arr (.cons (.obj (.cons "msg" (.str "field required") .nil)) .nil))
      rfl rfl rfl
  · exact (fetchJson_error_contract ⟨false, 500, "", none⟩).2.2.2.2.2
      rfl rfl rfl

/-- The squared norm can be summed over any term set containing the list's
own terms. -/
theorem normSq_eq_sum_termSet (A B : List String) :
    normSq A = ∑ t ∈ termSet A B, A.count t ^ 2 := by
  apply Finset.sum_subset
  · intro t ht
    simp only [termSet, List.toFinset_append, Finset.mem_union]
    exact Or.inl ht
  · intro t _ hnt
    have : A.count t = 0 :=
      List.count_eq_zero_of_not_mem (fun hm => hnt (List.mem_toFinset.mpr hm))
    simp [this]

/-- Symmetric variant for the second vector. -/
theorem normSq_eq_sum_termSet_right (A B : List String) :
    normSq B = ∑ t ∈ termSet A B, B.count t ^ 2 := by
  apply Finset.sum_subset
  · intro t ht
    simp only [termSet, List.toFinset_append, Finset.mem_union]
    exact Or.inr ht
  · intro t _ hnt
    have : B.count t = 0 :=
      List.count_eq_zero_of_not_mem (fun hm => hnt (List.mem_toFinset.mpr hm))
    simp [this]

/-- The dot product of a term-frequency vector with itself is its squared
norm. -/
theorem dotProd_self (A : List String) : dotProd A A = normSq A := by
  unfold dotProd normSq
  have hset : termSet A A = A.toFinset := by
    simp [termSet, List.toFinset_append]
  rw [hset]
  exact Finset.sum_congr rfl (fun t _ => (sq (A.count t)).symm)

/-- A nonempty token list has positive squared norm. -/
theorem normSq_pos (A : List String) (h : A ≠ []) : 0 < normSq A := by
  cases A with
  | nil => exact absurd rfl h
  | cons a t =>
    have hmem : a ∈ (a :: t) := List.mem_cons_self a t
    have hfin : a ∈ (a :: t).toFinset := List.mem_toFinset.mpr hmem
    have hcount : 0 < (a :: t).count a := List.count_pos_iff.mpr hmem
    have hterm : 0 < (a :: t).count a ^ 2 := pow_pos hcount 2
    calc 0 < (a :: t).count a ^ 2 := hterm
      _ ≤ normSq (a :: t) := by
        unfold normSq
        exact Finset.single_le_sum
          (f := fun s => (a :: t).count s ^ 2)
          (fun i _ => Nat.zero_le _) hfin

/-- Cauchy–Schwarz for the term-frequency vectors: the dot product is at
most the product of the norms. -/
theorem dotProd_le_sqrt_mul_sqrt (A B : List String) :
    (dotProd A B : ℝ) ≤
      Real.sqrt (normSq A) * Real.sqrt (normSq B) := by
  have hdot : (dotProd A B : ℝ) =
      ∑ t ∈ termSet A B, (A.count t : ℝ) * (B.count t : ℝ) := by
    unfold dotProd
    push_cast
    rfl
  have hA : (normSq A : ℝ) = ∑ t ∈ termSet A B, (A.count t : ℝ) ^ 2 := by
    rw [normSq_eq_sum_termSet A B]
    push_cast
    rfl
  have hB : (normSq B : ℝ) = ∑ t ∈ termSet A B, (B.count t : ℝ) ^ 2 := by
    rw [normSq_eq_sum_termSet_right A B]
    push_cast
    rfl
  have hsq : ((dotProd A B : ℝ)) ^ 2 ≤ (normSq A : ℝ) * (normSq B : ℝ) := by
    rw [hdot, hA, hB]
    exact Finset.sum_mul_sq_le_sq_mul_sq _ _ _
  have hle : (dotProd A B : ℝ) ≤ Real.sqrt ((normSq A : ℝ) * (normSq B : ℝ)) :=
    (Real.le_sqrt (Nat.cast_nonneg _)
      (mul_nonneg (Nat.cast_nonneg _) (Nat.cast_nonneg _))).mpr hsq
  rwa [Real.sqrt_mul (Nat.cast_nonneg _)] at hle

/-- The cosine similarity always lies in the unit interval. -/
theorem cosineSim_bounds (a b : String) :
    0 ≤ cosineSim a b ∧ cosineSim a b ≤ 1 := by
  simp only [cosineSim]
  by_cases h1 : tokenize a = [] ∧ tokenize b = []
  · rw [if_pos h1]
    norm_num
  · rw [if_neg h1]
    by_cases h2 : tokenize a = [] ∨ tokenize b = []
    · rw [if_pos h2]
      norm_num
    · rw [if_neg h2]
      push_neg at h2
      have hA : 0 < normSq (tokenize a) := normSq_pos _ h2.1
      have hB : 0 < normSq (tokenize b) := normSq_pos _ h2.2
      have hpos : 0 < Real.sqrt (normSq (tokenize a)) *
          Real.sqrt (normSq (tokenize b)) :=
        mul_pos (Real.sqrt_pos.mpr (by exact_mod_cast hA))
          (Real.sqrt_pos.mpr (by exact_mod_cast hB))
      constructor
      · exact div_nonneg (Nat.cast_nonneg _) (le_of_lt hpos)
      · rw [div_le_one hpos]
        exact dotProd_le_sqrt_mul_sqrt _ _

/-- The cosine similarity of a text with itself is 1. -/
theorem cosineSim_self (a : String) : cosineSim a a = 1 := by
  simp only [cosineSim]
  by_cases h : tokenize a = []
  · rw [if_pos ⟨h, h⟩]
  · rw [if_neg (fun hc => h hc.1), if_neg (fun hc => h (hc.elim id id))]
    rw [dotProd_self]
    rw [Real.mul_self_sqrt (Nat.cast_nonneg _)]
    apply div_self
    have := normSq_pos _ h
    exact ne_of_gt (by exact_mod_cast this)

/-- C6: the evaluation engine's cosine similarity over sparse
term-frequency vectors is always in [0,1]; a text against itself scores
exactly 1; it is 1 when both texts tokenize to empty and 0 when exactly one
of them does. -/
theorem cosineSim_contract (a b : String) :
    (0 ≤ cosineSim a b ∧ cosineSim a b ≤ 1) ∧
    cosineSim a a = 1 ∧
    (tokenize a = [] → tokenize b = [] → cosineSim a b = 1) ∧
    (tokenize a = [] → tokenize b ≠ [] → cosineSim a b = 0) ∧
    (tokenize a ≠ [] → tokenize b = [] → cosineSim a b = 0) := by
  refine ⟨cosineSim_bounds a b, cosineSim_self a, ?_, ?_, ?_⟩
  · intro h1 h2
    simp only [cosineSim]
    rw [if_pos ⟨h1, h2⟩]
  · intro h1 h2
    simp only [cosineSim]
    rw [if_neg (fun hc => h2 hc.2), if_pos (Or.inl h1)]
  · intro h1 h2
    simp only [cosineSim]
    rw [if_neg (fun hc => h1 hc.1), if_pos (Or.inr h2)]

/-- C6 witness: concrete empty/non-empty pairs hit the three special cases. -/
theorem cosineSim_contract_witness :
    cosineSim "" "" = 1 ∧
    cosineSim "" "hello" = 0 ∧
    cosineSim "Hello!" "" = 0 := by
  refine ⟨(cosineSim_contract "" "").2.2.1 rfl rfl, ?_, ?_⟩
  · exact (cosineSim_contract "" "hello").2.2.2.1 rfl (by decide)
  · exact (cosineSim_contract "Hello!" "").2.2.2.2 (by decide) rfl

end ConsentDash
